import Mathlib

set_option maxHeartbeats 1000000

/-!
Verification development for moonlite (src/moonlite/utils/dashboard.py).

The file shallowly embeds the three core components of the dashboard module:
the cookie Authenticator (get_cookies), the Listing Scraper (get_apps) and
the Concurrent Relation Fetcher (get_packages with its inner app_thread).
External capabilities (the browser cookie jar, the HTTP transport and the
BeautifulSoup HTML tree) are modelled by passing their observable results
(cookie record lists and pre-parsed page structures) as explicit arguments,
following the capability boundaries the module itself draws.  Python dicts
are modelled as association lists with in-place update on an existing key,
which is exactly the observable insert/lookup semantics of a Python dict.
-/

/-- Split a character list at every occurrence of a separator character,
the semantics of Python str.split with a one-character separator.  Written
as a structural fold so that every model in this file evaluates inside the
kernel. -/
def splitOnCharAux (sep c : Char) (acc : List (List Char)) : List (List Char) :=
  match acc with
  | [] => if c = sep then [[], []] else [[c]]
  | cur :: rest => if c = sep then [] :: cur :: rest else (c :: cur) :: rest

/-- Split a character list on a separator character. -/
def splitOnChar (sep : Char) (l : List Char) : List (List Char) :=
  l.foldr (splitOnCharAux sep) [[]]

/-- The characters before the first occurrence of the separator, paired
with the characters after it when the separator occurs at all. -/
def firstSplit (sep : Char) : List Char → List Char × Option (List Char)
  | [] => ([], none)
  | c :: rest =>
    if c = sep then ([], some rest)
    else
      let p := firstSplit sep rest
      (c :: p.1, p.2)

/-- Model of urllib.parse.urlparse on characters, restricted to what
dashboard.py feeds it: absolute http(s) URLs and relative hyperlink
targets.  Returns the pair (netloc, path).  The fragment (after the first
hash sign) and the query (after the first question mark) are stripped; when
a colon is followed by two slashes the authority runs to the next slash and
the path is the rest, otherwise the whole remainder is the path. -/
def pyUrlparseChars (l : List Char) : List Char × List Char :=
  let s := (firstSplit '#' l).1
  let s2 := (firstSplit '?' s).1
  match firstSplit ':' s2 with
  | (_, none) => ([], s2)
  | (_, some rest) =>
    if List.isPrefixOf ['/', '/'] rest then
      match firstSplit '/' (rest.drop 2) with
      | (netloc, none) => (netloc, [])
      | (netloc, some p) => (netloc, '/' :: p)
    else ([], s2)

/-- Model of urllib.parse.urlparse returning (netloc, path). -/
def pyUrlparse (url : String) : String × String :=
  let p := pyUrlparseChars url.data
  (⟨p.1⟩, ⟨p.2⟩)

/-- The .path component of urlparse, as used on hyperlink targets. -/
def pyUrlparsePath (url : String) : String := (pyUrlparse url).2

/-- The .netloc component of urlparse, as used to derive the portal domain. -/
def pyUrlparseNetloc (url : String) : String := (pyUrlparse url).1

/-- Model of str.startswith. -/
def pyStartsWith (s p : String) : Bool :=
  List.isPrefixOf p.data s.data

/-- Value of a hexadecimal digit character, if it is one. -/
def hexVal (c : Char) : Option Nat :=
  if c.isDigit then some (c.toNat - 48)
  else if 97 ≤ c.toNat ∧ c.toNat ≤ 102 then some (c.toNat - 87)
  else if 65 ≤ c.toNat ∧ c.toNat ≤ 70 then some (c.toNat - 55)
  else none

/-- Character-list worker for pyUnquote.  A percent sign followed by two hex
digits decodes to the character with that code; malformed escapes are kept
verbatim, as urllib.parse.unquote does.  Multi-byte UTF-8 escape sequences
are modelled as individual code points, which is faithful for the ASCII
hyperlink targets the dashboard pages contain. -/
def pyUnquoteList : List Char → List Char
  | '%' :: a :: b :: rest =>
    match hexVal a, hexVal b with
    | some x, some y => Char.ofNat (16 * x + y) :: pyUnquoteList rest
    | _, _ => '%' :: pyUnquoteList (a :: b :: rest)
  | c :: rest => c :: pyUnquoteList rest
  | [] => []

/-- Model of urllib.parse.unquote. -/
def pyUnquote (s : String) : String := ⟨pyUnquoteList s.data⟩

/-- Model of pathlib.PurePosixPath(path).parts: a leading slash contributes
the root part, then the slash-separated segments with empty segments and
single dots collapsed away. -/
def posixParts (path : String) : List String :=
  let segs := ((splitOnChar '/' path.data).filter
    (fun s => s ≠ [] ∧ s ≠ ['.'])).map (fun s => (⟨s⟩ : String))
  match path.data with
  | '/' :: _ => "/" :: segs
  | _ => segs

/-- Model of str.isnumeric restricted to ASCII decimal digits, the only
numeric characters appearing in dashboard ids. -/
def pyIsnumeric (s : String) : Bool :=
  decide (s.data ≠ []) && s.data.all Char.isDigit

/-- Model of int on a string of decimal digits. -/
def digitsToNat (l : List Char) : Nat :=
  l.foldl (fun n c => n * 10 + (c.toNat - 48)) 0

/-- Model of str.strip: drop surrounding whitespace. -/
def pyStrip (s : String) : String :=
  ⟨((s.data.dropWhile Char.isWhitespace).reverse.dropWhile Char.isWhitespace).reverse⟩

/-- The id-extraction pipeline shared by get_apps (line 118) and app_thread
(lines 149-152): parse the hyperlink target, take its path, URL-decode it,
split it into posix path parts, keep the purely numeric parts and read them
as integers.  The source then indexes the resulting list with [-1]. -/
def numericParts (href : String) : List Nat :=
  ((posixParts (pyUnquote (pyUrlparsePath href))).filter pyIsnumeric).map
    (fun s => digitsToNat s.data)

/-- A browser cookie record as yielded by the browser_cookie3 jar: the
fields of http.cookiejar.Cookie that dashboard.py reads. -/
structure Cookie where
  domain : String
  name : String
  value : String
deriving DecidableEq

/-- A dashboard target (the Dashboards enum, lines 16-32): portal URL and
the required cookie-name prefixes. -/
structure Dashboards where
  portal_url : String
  cookies_required_prefixes : List String
deriving DecidableEq

/-- The portal domain, derived in Dashboards.init via urlparse(url).netloc
(line 27). -/
def Dashboards.portal_domain (d : Dashboards) : String :=
  pyUrlparseNetloc d.portal_url

/-- The STEAMGAMES member of the Dashboards enum (line 31). -/
def Dashboards.STEAMGAMES : Dashboards :=
  ⟨"https://partner.steamgames.com/dashboard",
   ["sessionid", "steamLoginSecure", "steamMachineAuth"]⟩

/-- The STEAMPOWERED member of the Dashboards enum (line 32). -/
def Dashboards.STEAMPOWERED : Dashboards :=
  ⟨"https://partner.steampowered.com/nav_games.php",
   ["steamLoginSecure", "steamMachineAuth"]⟩

/-- The CookiesNotFound exception (line 46). -/
inductive CookiesNotFound where
  | mk
deriving DecidableEq

/-- The Python exceptions that the scraping code can raise: attribute access
on None, subscripting None, a missing dict key, and indexing an empty list. -/
inductive PyError where
  | attributeError
  | typeError
  | keyError
  | indexError
deriving DecidableEq

/-- Model of the Python equality test between an http.cookiejar.Cookie
object and a str.  Cookie defines no custom equality, so comparison with a
string falls back to identity and is never true. -/
def pyCookieEqStr (_ : Cookie) (_ : String) : Bool := false

/-- Model of the test `cookie not in cookies` on line 72 (negated): the
Cookie object is looked up among the keys of the dict, which are strings,
so the test relies on pyCookieEqStr. -/
def cookieInDict (c : Cookie) (m : List (String × String)) : Bool :=
  m.any (fun kv => pyCookieEqStr c kv.fst)

/-- Python dict insertion on a string-keyed association list: update the
existing entry for the key in place, else append. -/
def dictInsertStr : List (String × String) → String → String → List (String × String)
  | [], k, v => [(k, v)]
  | kv :: rest, k, v =>
    if kv.fst = k then (k, v) :: rest else kv :: dictInsertStr rest k v

/-- The cookie filter of one get_cookies attempt (lines 66-73): fold over
the jar, retaining a cookie when its domain equals the portal domain, its
name starts with the fixed authentication prefix or equals the fixed
session-cookie name, and the vacuous membership guard passes. -/
def get_cookies_filter (d : Dashboards) (cj : List Cookie) : List (String × String) :=
  cj.foldl
    (fun cookies c =>
      if c.domain = d.portal_domain ∧
          (pyStartsWith c.name "steam" = true ∨ c.name = "sessionid") ∧
          cookieInDict c cookies = false
      then dictInsertStr cookies c.name c.value
      else cookies)
    []

/-- The required-prefix check of line 76: every required prefix must be the
start of at least one retained cookie name (iteration over a Python dict
yields its keys). -/
def cookiesRequiredOk (d : Dashboards) (cookies : List (String × String)) : Bool :=
  d.cookies_required_prefixes.all
    (fun check => cookies.any (fun kv => pyStartsWith kv.fst check))

/-- The retry loop of get_cookies (lines 63-81), with the remaining tries as
explicit fuel and the attempt index selecting the jar contents read freshly
on that attempt. -/
def get_cookies_go (jars : Nat → List Cookie) (d : Dashboards) :
    Nat → Nat → Except CookiesNotFound (List (String × String))
  | _, 0 => Except.error CookiesNotFound.mk
  | attempt, t + 1 =>
    let cookies := get_cookies_filter d (jars attempt)
    if cookiesRequiredOk d cookies = true then Except.ok cookies
    else get_cookies_go jars d (attempt + 1) t

/-- Model of get_cookies (lines 49-86): three tries, raising CookiesNotFound
when all fail (lines 82-83), returning the filtered dict of the first
successful attempt otherwise.  The jar is re-read on every attempt, which
the model expresses by indexing the jar contents with the attempt number. -/
def get_cookies (jars : Nat → List Cookie) (d : Dashboards) :
    Except CookiesNotFound (List (String × String)) :=
  get_cookies_go jars d 0 3

/-- A hyperlink as the listing parser reads it: its target attribute (absent
when the anchor has no href, which makes the subscript on line 118 raise
KeyError) and its text content. -/
structure Hyperlink where
  href : Option String
  text : String
deriving DecidableEq

/-- One recent_app_row of the listing page, reduced to the three
sub-elements that get_apps reads (lines 103-122): the anchors of the
recent_app_links divider (none when that divider is absent, making find_all
on line 107 raise AttributeError), the first anchor of the recent_app_name
divider (outer none when the divider is absent so that find on line 112
raises AttributeError, inner none when the divider holds no anchor so that
the subscript on line 118 raises TypeError on None), and the text of the
recent_app_type divider (none when absent, making get_text on line 122
raise AttributeError). -/
structure AppRow where
  links_div : Option (List Hyperlink)
  name_div : Option (Option Hyperlink)
  type_div : Option String
deriving DecidableEq

/-- The record built for each kept row (lines 116-123). -/
structure App where
  appid : Nat
  name : String
  type : String
deriving DecidableEq

/-- The parsed listing page: none when the View-and-search heading of line
100 is absent (find returns None and find_next_siblings on line 101 raises
AttributeError), otherwise the recent_app_row siblings in document order. -/
structure AppsPage where
  header2 : Option (List AppRow)
deriving DecidableEq

/-- Whether an Except is a success. -/
def isOkE {e a : Type} : Except e a → Bool
  | Except.ok _ => true
  | Except.error _ => false

/-- The per-row extraction of lines 111-123, with the error cases in the
order Python evaluates them: missing name divider, anchor-less name
divider, href-less anchor, no numeric path segment, missing type divider. -/
def rowApp (row : AppRow) : Except PyError App :=
  match row.name_div with
  | none => Except.error PyError.attributeError
  | some none => Except.error PyError.typeError
  | some (some name_a) =>
    match name_a.href with
    | none => Except.error PyError.keyError
    | some href =>
      match (numericParts href).getLast? with
      | none => Except.error PyError.indexError
      | some appid =>
        match row.type_div with
        | none => Except.error PyError.attributeError
        | some ty => Except.ok ⟨appid, pyStrip name_a.text, pyStrip ty⟩

/-- The filtering policy of lines 106-109 on a well-formed row: keep the
row when its links divider holds at least two hyperlinks. -/
def keepRow (row : AppRow) : Bool :=
  decide (2 ≤ (row.links_div.getD []).length)

/-- Extraction with a junk default, used only to state results about rows
whose extraction is known to succeed. -/
def rowAppD (row : AppRow) : App :=
  ((rowApp row).toOption).getD ⟨0, "", ""⟩

/-- The row loop of get_apps (lines 103-124): skip a row failing the links
filter when store_pages_only is set, extract and append otherwise, and let
any Python exception abort the whole loop. -/
def get_apps_loop (store_pages_only : Bool) : List AppRow → Except PyError (List App)
  | [] => Except.ok []
  | row :: rest =>
    if store_pages_only then
      match row.links_div with
      | none => Except.error PyError.attributeError
      | some links =>
        if links.length < 2 then get_apps_loop store_pages_only rest
        else
          Except.bind (rowApp row) fun app =>
            Except.map (fun apps => app :: apps) (get_apps_loop store_pages_only rest)
    else
      Except.bind (rowApp row) fun app =>
        Except.map (fun apps => app :: apps) (get_apps_loop store_pages_only rest)

/-- Model of get_apps (lines 88-125).  The HTTP fetch and the HTML parse of
line 99 are capabilities, so the function consumes the parsed page. -/
def get_apps (page : AppsPage) (store_pages_only : Bool) : Except PyError (List App) :=
  match page.header2 with
  | none => Except.error PyError.attributeError
  | some app_rows => get_apps_loop store_pages_only app_rows

/-- One tr-released row of a per-app detail page, reduced to the target of
its first href-bearing anchor (none when no such anchor exists, so that the
subscript on line 151 raises TypeError on None). -/
structure PkgRow where
  a_href : Option String
deriving DecidableEq

/-- The parsed detail page fetched by app_thread (line 148): none when the
Store-packages divider of lines 152-154 is absent (parent access raises
AttributeError), otherwise the tr-released rows in document order. -/
structure DetailPage where
  store_packages : Option (List PkgRow)
deriving DecidableEq

/-- The body of the packageids comprehension of app_thread (lines 149-159):
extract from each released row the last numeric path segment of its first
hyperlink target, aborting on the first Python exception exactly as the
comprehension does. -/
def app_thread_rows : List PkgRow → Except PyError (List Nat)
  | [] => Except.ok []
  | row :: rest =>
    match row.a_href with
    | none => Except.error PyError.typeError
    | some href =>
      match (numericParts href).getLast? with
      | none => Except.error PyError.indexError
      | some pid => Except.map (fun pids => pid :: pids) (app_thread_rows rest)

/-- The fetch-and-parse phase of app_thread (lines 148-159): locate the
Store-packages section, then run the packageids comprehension over its
released rows. -/
def app_thread_parse (page : DetailPage) : Except PyError (List Nat) :=
  match page.store_packages with
  | none => Except.error PyError.attributeError
  | some rows => app_thread_rows rows

/-- Python dict insertion on a Nat-keyed association list. -/
def natDictInsert : List (Nat × Nat) → Nat → Nat → List (Nat × Nat)
  | [], k, v => [(k, v)]
  | kv :: rest, k, v =>
    if kv.fst = k then (k, v) :: rest else kv :: natDictInsert rest k v

/-- Python dict lookup on a Nat-keyed association list. -/
def natDictLookup : List (Nat × Nat) → Nat → Option Nat
  | [], _ => none
  | kv :: rest, k => if kv.fst = k then some kv.snd else natDictLookup rest k

/-- The critical section of app_thread (lines 161-163): under the lock,
map every extracted packageid to this worker appid. -/
def insertPackages (m : List (Nat × Nat)) (pids : List Nat) (appid : Nat) : List (Nat × Nat) :=
  pids.foldl (fun m pid => natDictInsert m pid appid) m

/-- The effect of one completed worker on the shared dict.  A worker whose
fetch or parse raises stores its exception in a future that pool.map
produced and nobody iterates (line 166), so the exception is dropped and
the worker contributes nothing; a successful worker inserts all of its
packageids under the lock. -/
def get_packages_step (pages : Nat → DetailPage) (m : List (Nat × Nat)) (appid : Nat) :
    List (Nat × Nat) :=
  match app_thread_parse (pages appid) with
  | Except.error _ => m
  | Except.ok pids => insertPackages m pids appid

/-- Model of get_packages (lines 127-167) on the app_ids path that reuses
get_apps results.  The detail pages are a capability indexed by appid; the
argument sched is the order in which the workers acquire the lock, which an
execution of the 20-worker pool realises as some permutation of the appid
list, and which is the only scheduling freedom visible in the final dict
since each critical section is atomic.  The call always returns the dict
built by the workers that completed, because the pool join of the with
block waits for all futures but never re-raises their stored exceptions. -/
def get_packages (pages : Nat → DetailPage) (sched : List Nat) : List (Nat × Nat) :=
  sched.foldl (get_packages_step pages) []

/-- The packageids a worker contributes: its parse result on success,
nothing when its exception is swallowed. -/
def extOk (pages : Nat → DetailPage) (appid : Nat) : List Nat :=
  match app_thread_parse (pages appid) with
  | Except.ok pids => pids
  | Except.error _ => []

/-- The winning appid for a key: the last worker in lock order whose
contributed packageids contain the key. -/
def lastOwner (pages : Nat → DetailPage) (k : Nat) : List Nat → Option Nat
  | [] => none
  | appid :: rest =>
    match lastOwner pages k rest with
    | some v => some v
    | none => if k ∈ extOk pages appid then some appid else none


/-- A jar holding two records with the same name for the portal domain, the
failing input of the first-occurrence-wins question. -/
def jarDup : List Cookie :=
  [⟨"partner.steamgames.com", "sessionid", "a"⟩,
   ⟨"partner.steamgames.com", "sessionid", "b"⟩]

/-- A jar with one matching record and one record on a foreign domain. -/
def jarMixed : List Cookie :=
  [⟨"partner.steamgames.com", "sessionid", "a"⟩,
   ⟨"example.com", "steamLoginSecure", "x"⟩]

/-- A jar satisfying all three STEAMGAMES required prefixes. -/
def jarGood : List Cookie :=
  [⟨"partner.steamgames.com", "sessionid", "a"⟩,
   ⟨"partner.steamgames.com", "steamLoginSecure", "b"⟩,
   ⟨"partner.steamgames.com", "steamMachineAuth123", "c"⟩]

/-- A listing row with two hyperlinks in its links divider. -/
def rowKept : AppRow :=
  ⟨some [⟨some "/apps/landing/10", "store"⟩, ⟨some "/apps/comm/10", "community"⟩],
   some (some ⟨some "https://partner.steamgames.com/apps/landing/10", " Foo "⟩),
   some " game "⟩

/-- A listing row with a single hyperlink in its links divider. -/
def rowDropped : AppRow :=
  ⟨some [⟨some "/apps/landing/11", "store"⟩],
   some (some ⟨some "https://partner.steamgames.com/apps/landing/11", " Bar "⟩),
   some " game "⟩

/-- A listing row whose links divider is absent. -/
def rowNoLinks : AppRow :=
  ⟨none,
   some (some ⟨some "/apps/landing/12", "Baz"⟩),
   some "game"⟩

/-- Detail pages on which the worker for appid 10 raises (the
Store-packages section is missing) while every other worker extracts
packageid 200. -/
def pagesOneFailing : Nat → DetailPage := fun appid =>
  if appid = 10 then ⟨none⟩
  else ⟨some [⟨some "https://partner.steamgames.com/packages/200"⟩]⟩

/-- Detail pages on which every worker extracts the same packageid 100. -/
def pagesCollide : Nat → DetailPage := fun _ =>
  ⟨some [⟨some "/packages/100"⟩]⟩

/-- Detail pages with disjoint extractions: appid 10 yields packageid 100,
every other appid yields packageid 200. -/
def pagesDisjoint : Nat → DetailPage := fun appid =>
  if appid = 10 then ⟨some [⟨some "/packages/100"⟩]⟩
  else ⟨some [⟨some "/packages/200"⟩]⟩

/-- Detail pages where appid 10 yields packageids 100 and 101 and every
other appid yields packageid 200. -/
def pagesTwoWorkers : Nat → DetailPage := fun appid =>
  if appid = 10 then ⟨some [⟨some "/packages/100"⟩, ⟨some "/packages/101"⟩]⟩
  else ⟨some [⟨some "/packages/200"⟩]⟩

theorem dictInsertStr_mem (m : List (String × String)) (k v : String) :
    ∀ n w, (n, w) ∈ dictInsertStr m k v → (n, w) ∈ m ∨ (n = k ∧ w = v) := by
  induction m with
  | nil =>
    intro n w h
    simp [dictInsertStr] at h
    exact Or.inr ⟨h.1, h.2⟩
  | cons kv rest ih =>
    intro n w h
    by_cases hk : kv.fst = k
    · simp [dictInsertStr, hk] at h
      rcases h with ⟨h1, h2⟩ | h
      · exact Or.inr ⟨h1, h2⟩
      · exact Or.inl (List.mem_cons_of_mem kv h)
    · simp [dictInsertStr, hk] at h
      rcases h with h | h
      · exact Or.inl (by simp [h])
      · rcases ih n w h with h2 | h2
        · exact Or.inl (List.mem_cons_of_mem kv h2)
        · exact Or.inr h2

theorem get_cookies_filter_mem_aux (d : Dashboards) (cj : List Cookie) :
    ∀ acc n v,
      (n, v) ∈ cj.foldl
        (fun cookies c =>
          if c.domain = d.portal_domain ∧
              (pyStartsWith c.name "steam" = true ∨ c.name = "sessionid") ∧
              cookieInDict c cookies = false
          then dictInsertStr cookies c.name c.value
          else cookies) acc →
      (n, v) ∈ acc ∨
        ∃ c, c ∈ cj ∧ c.name = n ∧ c.domain = d.portal_domain ∧
          (pyStartsWith n "steam" = true ∨ n = "sessionid") := by
  induction cj with
  | nil => intro acc n v h; exact Or.inl h
  | cons c rest ih =>
    intro acc n v h
    simp only [List.foldl_cons] at h
    rcases ih _ n v h with h2 | h2
    · by_cases hc : c.domain = d.portal_domain ∧
          (pyStartsWith c.name "steam" = true ∨ c.name = "sessionid") ∧
          cookieInDict c acc = false
      · rw [if_pos hc] at h2
        rcases dictInsertStr_mem acc c.name c.value n v h2 with h3 | h3
        · exact Or.inl h3
        · refine Or.inr ⟨c, List.mem_cons_self c rest, h3.1.symm, hc.1, ?_⟩
          rw [h3.1]
          exact hc.2.1
      · rw [if_neg hc] at h2
        exact Or.inl h2
    · rcases h2 with ⟨c2, hc2, h3⟩
      exact Or.inr ⟨c2, List.mem_cons_of_mem c hc2, h3⟩

theorem natDictLookup_insert (m : List (Nat × Nat)) (k v k2 : Nat) :
    natDictLookup (natDictInsert m k v) k2 =
      if k2 = k then some v else natDictLookup m k2 := by
  induction m with
  | nil =>
    simp only [natDictInsert, natDictLookup]
    split_ifs <;> first | rfl | omega
  | cons kv rest ih =>
    simp only [natDictInsert]
    by_cases hk : kv.fst = k
    · rw [if_pos hk]
      show (if k = k2 then some v else natDictLookup rest k2) =
        if k2 = k then some v else
          if kv.fst = k2 then some kv.snd else natDictLookup rest k2
      split_ifs <;> first | rfl | omega
    · rw [if_neg hk]
      show (if kv.fst = k2 then some kv.snd else natDictLookup (natDictInsert rest k v) k2) =
        if k2 = k then some v else
          if kv.fst = k2 then some kv.snd else natDictLookup rest k2
      rw [ih]
      split_ifs <;> first | rfl | omega

theorem natDictLookup_insertPackages (pids : List Nat) (appid k : Nat) :
    ∀ m, natDictLookup (insertPackages m pids appid) k =
      if k ∈ pids then some appid else natDictLookup m k := by
  induction pids with
  | nil => intro m; simp [insertPackages]
  | cons p ps ih =>
    intro m
    show natDictLookup (insertPackages (natDictInsert m p appid) ps appid) k = _
    rw [ih]
    by_cases hps : k ∈ ps
    · simp [hps]
    · by_cases hp : k = p
      · simp [hps, hp, natDictLookup_insert]
      · simp [hps, hp, natDictLookup_insert, List.mem_cons]

theorem natDictLookup_step (pages : Nat → DetailPage) (m : List (Nat × Nat))
    (appid k : Nat) :
    natDictLookup (get_packages_step pages m appid) k =
      if k ∈ extOk pages appid then some appid else natDictLookup m k := by
  unfold get_packages_step extOk
  cases h : app_thread_parse (pages appid) with
  | error e => simp
  | ok pids => rw [natDictLookup_insertPackages]

theorem natDictLookup_foldl (pages : Nat → DetailPage) (k : Nat) :
    ∀ (sched : List Nat) (m : List (Nat × Nat)),
      natDictLookup (sched.foldl (get_packages_step pages) m) k =
        match lastOwner pages k sched with
        | some v => some v
        | none => natDictLookup m k := by
  intro sched
  induction sched with
  | nil => intro m; simp [lastOwner]
  | cons appid rest ih =>
    intro m
    show natDictLookup (rest.foldl (get_packages_step pages) (get_packages_step pages m appid)) k = _
    rw [ih]
    show _ = (match (match lastOwner pages k rest with
        | some v => some v
        | none => if k ∈ extOk pages appid then some appid else none) with
      | some v => some v
      | none => natDictLookup m k)
    cases hrest : lastOwner pages k rest with
    | some v => simp
    | none =>
      rw [natDictLookup_step]
      by_cases hk : k ∈ extOk pages appid <;> simp [hk]

theorem natDictLookup_get_packages (pages : Nat → DetailPage) (sched : List Nat) (k : Nat) :
    natDictLookup (get_packages pages sched) k = lastOwner pages k sched := by
  unfold get_packages
  rw [natDictLookup_foldl]
  cases lastOwner pages k sched <;> simp [natDictLookup]

theorem lastOwner_some (pages : Nat → DetailPage) (k : Nat) :
    ∀ (sched : List Nat) (v : Nat), lastOwner pages k sched = some v →
      v ∈ sched ∧ k ∈ extOk pages v := by
  intro sched
  induction sched with
  | nil => intro v h; simp [lastOwner] at h
  | cons appid rest ih =>
    intro v h
    unfold lastOwner at h
    cases hrest : lastOwner pages k rest with
    | some w =>
      rw [hrest] at h
      cases h
      rcases ih v hrest with ⟨h1, h2⟩
      exact ⟨List.mem_cons_of_mem appid h1, h2⟩
    | none =>
      rw [hrest] at h
      by_cases hk : k ∈ extOk pages appid
      · rw [if_pos hk] at h
        cases h
        exact ⟨List.mem_cons_self appid rest, hk⟩
      · rw [if_neg hk] at h
        cases h

theorem lastOwner_none (pages : Nat → DetailPage) (k : Nat) :
    ∀ (sched : List Nat), lastOwner pages k sched = none ↔
      ∀ a ∈ sched, k ∉ extOk pages a := by
  intro sched
  induction sched with
  | nil => simp [lastOwner]
  | cons appid rest ih =>
    constructor
    · intro h a ha
      unfold lastOwner at h
      cases hrest : lastOwner pages k rest with
      | some w => rw [hrest] at h; cases h
      | none =>
        rw [hrest] at h
        rcases List.mem_cons.mp ha with rfl | ha2
        · by_cases hk : k ∈ extOk pages a
          · rw [if_pos hk] at h; cases h
          · exact hk
        · exact (ih.mp hrest) a ha2
    · intro h
      unfold lastOwner
      cases hrest : lastOwner pages k rest with
      | some w =>
        exfalso
        rcases lastOwner_some pages k rest w hrest with ⟨h1, h2⟩
        exact h w (List.mem_cons_of_mem appid h1) h2
      | none => rw [if_neg (h appid (List.mem_cons_self appid rest))]

theorem get_cookies_go_all_fail (jars : Nat → List Cookie) (d : Dashboards) :
    ∀ (t a : Nat),
      (∀ i, i < t → cookiesRequiredOk d (get_cookies_filter d (jars (a + i))) = false) →
      get_cookies_go jars d a t = Except.error CookiesNotFound.mk := by
  intro t
  induction t with
  | zero => intro a h; rfl
  | succ t ih =>
    intro a h
    show (if cookiesRequiredOk d (get_cookies_filter d (jars a)) = true
        then Except.ok (get_cookies_filter d (jars a))
        else get_cookies_go jars d (a + 1) t) = _
    have h0 : cookiesRequiredOk d (get_cookies_filter d (jars a)) = false := by
      have := h 0 (by omega)
      simpa using this
    rw [if_neg (fun hc => Bool.false_ne_true (h0 ▸ hc))]
    apply ih
    intro i hi
    have hstep := h (i + 1) (by omega)
    have heq : a + 1 + i = a + (i + 1) := by omega
    rw [heq]
    exact hstep

theorem get_cookies_go_success (jars : Nat → List Cookie) (d : Dashboards) :
    ∀ (t a k : Nat), k < t →
      (∀ i, i < k → cookiesRequiredOk d (get_cookies_filter d (jars (a + i))) = false) →
      cookiesRequiredOk d (get_cookies_filter d (jars (a + k))) = true →
      get_cookies_go jars d a t = Except.ok (get_cookies_filter d (jars (a + k))) := by
  intro t
  induction t with
  | zero => intro a k hk _ _; exact absurd hk (Nat.not_lt_zero k)
  | succ t ih =>
    intro a k hk hfail hok
    show (if cookiesRequiredOk d (get_cookies_filter d (jars a)) = true
        then Except.ok (get_cookies_filter d (jars a))
        else get_cookies_go jars d (a + 1) t) = _
    by_cases h0 : cookiesRequiredOk d (get_cookies_filter d (jars a)) = true
    · rw [if_pos h0]
      have hk0 : k = 0 := by
        by_contra hne
        have hf := hfail 0 (by omega)
        rw [Nat.add_zero] at hf
        rw [hf] at h0
        exact Bool.false_ne_true h0
      rw [hk0, Nat.add_zero]
    · rw [if_neg h0]
      have hk0 : k ≠ 0 := by
        intro hz
        rw [hz, Nat.add_zero] at hok
        exact h0 hok
      have hres := ih (a + 1) (k - 1) (by omega) ?_ ?_
      · rw [hres]
        have heq : a + 1 + (k - 1) = a + k := by omega
        rw [heq]
      · intro i hi
        have hstep := hfail (i + 1) (by omega)
        have heq : a + 1 + i = a + (i + 1) := by omega
        rw [heq]
        exact hstep
      · have heq : a + 1 + (k - 1) = a + k := by omega
        rw [heq]
        exact hok

/-- C2: at the failing input jarDup, two retained records share the name
sessionid and the resulting dict holds the value of the LATER record.  The
guard of line 72 tests the Cookie object against the string keys of the
dict, which is never true, so the assignment of line 73 overwrites and the
last occurrence wins, contradicting first-occurrence-wins; the guard only
makes sense as an intended name-membership test, so this is a slip in the
code. -/
theorem get_cookies_filter_last_duplicate_wins :
    get_cookies_filter Dashboards.STEAMGAMES jarDup = [("sessionid", "b")] := by
  decide

/-- C3: every entry of the filtered dict stems from a jar record whose
domain is the portal domain and whose name starts with the fixed
authentication prefix or is the fixed session-cookie name, and the
attempt-success check of line 76 holds exactly when every required prefix
is the start of some retained name. -/
theorem get_cookies_filter_sound_and_success_iff (d : Dashboards) (cj : List Cookie) :
    (∀ n v, (n, v) ∈ get_cookies_filter d cj →
      (∃ c, c ∈ cj ∧ c.name = n ∧ c.domain = d.portal_domain) ∧
        (pyStartsWith n "steam" = true ∨ n = "sessionid")) ∧
    (cookiesRequiredOk d (get_cookies_filter d cj) = true ↔
      ∀ p, p ∈ d.cookies_required_prefixes →
        ∃ n v, (n, v) ∈ get_cookies_filter d cj ∧ pyStartsWith n p = true) := by
  constructor
  · intro n v h
    rcases get_cookies_filter_mem_aux d cj [] n v h with h2 | h2
    · simp at h2
    · rcases h2 with ⟨c, hc, h1, h2, h3⟩
      exact ⟨⟨c, hc, h1, h2⟩, h3⟩
  · unfold cookiesRequiredOk
    rw [List.all_eq_true]
    constructor
    · intro h p hp
      have h2 := h p hp
      rw [List.any_eq_true] at h2
      rcases h2 with ⟨kv, hkv, hs⟩
      exact ⟨kv.fst, kv.snd, by simpa using hkv, hs⟩
    · intro h p hp
      rw [List.any_eq_true]
      rcases h p hp with ⟨n, v, hm, hs⟩
      exact ⟨(n, v), hm, hs⟩

/-- C3 witness: the theorem instantiated on the mixed jar, at the retained
entry sessionid. -/
theorem get_cookies_filter_sound_and_success_iff_witness :
    ((∃ c, c ∈ jarMixed ∧ c.name = "sessionid" ∧
        c.domain = Dashboards.STEAMGAMES.portal_domain) ∧
      (pyStartsWith "sessionid" "steam" = true ∨ "sessionid" = "sessionid")) ∧
    (cookiesRequiredOk Dashboards.STEAMGAMES
        (get_cookies_filter Dashboards.STEAMGAMES jarMixed) = true ↔
      ∀ p, p ∈ Dashboards.STEAMGAMES.cookies_required_prefixes →
        ∃ n v, (n, v) ∈ get_cookies_filter Dashboards.STEAMGAMES jarMixed ∧
          pyStartsWith n p = true) :=
  ⟨(get_cookies_filter_sound_and_success_iff Dashboards.STEAMGAMES jarMixed).1
      "sessionid" "a" (by decide),
   (get_cookies_filter_sound_and_success_iff Dashboards.STEAMGAMES jarMixed).2⟩

/-- C4: when every one of the three attempts fails the required-prefix
check on its freshly read jar, get_cookies raises CookiesNotFound after
exactly the three attempts; when the first succeeding attempt is attempt k,
get_cookies returns the filtered dict of that attempt. -/
theorem get_cookies_retry_contract (jars : Nat → List Cookie) (d : Dashboards) :
    ((∀ i, i < 3 → cookiesRequiredOk d (get_cookies_filter d (jars i)) = false) →
      get_cookies jars d = Except.error CookiesNotFound.mk) ∧
    (∀ k, k < 3 →
      (∀ i, i < k → cookiesRequiredOk d (get_cookies_filter d (jars i)) = false) →
      cookiesRequiredOk d (get_cookies_filter d (jars k)) = true →
      get_cookies jars d = Except.ok (get_cookies_filter d (jars k))) := by
  constructor
  · intro h
    unfold get_cookies
    exact get_cookies_go_all_fail jars d 3 0 (fun i hi => by simpa using h i hi)
  · intro k hk hfail hok
    unfold get_cookies
    have hres := get_cookies_go_success jars d 3 0 k hk
      (fun i hi => by simpa using hfail i hi) (by simpa using hok)
    simpa using hres

/-- C4 witness: an always-empty jar exhausts the three attempts and raises,
and a jar satisfying all required prefixes succeeds on the first attempt
with its filtered dict. -/
theorem get_cookies_retry_contract_witness :
    get_cookies (fun _ => []) Dashboards.STEAMGAMES = Except.error CookiesNotFound.mk ∧
    get_cookies (fun _ => jarGood) Dashboards.STEAMGAMES =
      Except.ok (get_cookies_filter Dashboards.STEAMGAMES jarGood) :=
  ⟨(get_cookies_retry_contract (fun _ => []) Dashboards.STEAMGAMES).1
      (fun i _ => by decide),
   (get_cookies_retry_contract (fun _ => jarGood) Dashboards.STEAMGAMES).2 0 (by omega)
      (fun i hi => absurd hi (Nat.not_lt_zero i)) (by decide)⟩

theorem isOkE_ok_exists {e a : Type} (x : Except e a) (h : isOkE x = true) :
    ∃ v, x = Except.ok v := by
  cases x with
  | ok v => exact ⟨v, rfl⟩
  | error err => simp [isOkE] at h

theorem get_apps_loop_filter (rows : List AppRow) :
    (∀ r ∈ rows, (r.links_div).isSome = true) →
    (∀ r ∈ rows, keepRow r = true → isOkE (rowApp r) = true) →
    get_apps_loop true rows =
      Except.ok ((rows.filter (fun r => keepRow r)).map rowAppD) := by
  induction rows with
  | nil => intro _ _; rfl
  | cons row rest ih =>
    intro h1 h2
    have h1r := h1 row (List.mem_cons_self row rest)
    rcases Option.isSome_iff_exists.mp h1r with ⟨links, hlinks⟩
    have hrest := ih (fun r hr => h1 r (List.mem_cons_of_mem row hr))
      (fun r hr hk => h2 r (List.mem_cons_of_mem row hr) hk)
    show (match row.links_div with
      | none => Except.error PyError.attributeError
      | some links =>
        if links.length < 2 then get_apps_loop true rest
        else
          Except.bind (rowApp row) fun app =>
            Except.map (fun apps => app :: apps) (get_apps_loop true rest)) = _
    rw [hlinks]
    show (if links.length < 2 then get_apps_loop true rest
      else
        Except.bind (rowApp row) fun app =>
          Except.map (fun apps => app :: apps) (get_apps_loop true rest)) = _
    by_cases hlen : links.length < 2
    · rw [if_pos hlen, hrest, List.filter_cons,
        if_neg (by simp [keepRow, hlinks]; omega)]
    · have hkeep : keepRow row = true := by
        simp [keepRow, hlinks]
        omega
      rcases isOkE_ok_exists (rowApp row)
        (h2 row (List.mem_cons_self row rest) hkeep) with ⟨app, happ⟩
      rw [if_neg hlen, happ]
      show Except.map (fun apps => app :: apps) (get_apps_loop true rest) = _
      rw [hrest, List.filter_cons, if_pos hkeep]
      show Except.ok (app :: (rest.filter (fun r => keepRow r)).map rowAppD) = _
      have hD : rowAppD row = app := by
        simp [rowAppD, happ, Except.toOption]
      rw [List.map_cons, hD]

/-- C7: on a listing page whose rows all carry a links divider and whose
kept rows extract cleanly, get_apps with store_pages_only set excludes
exactly the rows with fewer than two hyperlinks in that divider, includes
all others, and returns the extracted records in document order. -/
theorem get_apps_store_pages_only_filter (rows : List AppRow)
    (h1 : ∀ r ∈ rows, (r.links_div).isSome = true)
    (h2 : ∀ r ∈ rows, keepRow r = true → isOkE (rowApp r) = true) :
    get_apps ⟨some rows⟩ true =
      Except.ok ((rows.filter (fun r => keepRow r)).map rowAppD) := by
  show get_apps_loop true rows = _
  exact get_apps_loop_filter rows h1 h2

/-- C7 witness: a two-hyperlink row is kept, a one-hyperlink row is
dropped. -/
theorem get_apps_store_pages_only_filter_witness :
    get_apps ⟨some [rowKept, rowDropped]⟩ true =
      Except.ok (([rowKept, rowDropped].filter (fun r => keepRow r)).map rowAppD) :=
  get_apps_store_pages_only_filter [rowKept, rowDropped] (by decide) (by decide)

/-- C8: on a row whose name divider holds an anchor with a target, whose
type divider is present and whose target has a numeric path segment, the
extracted record has the last numeric path segment of the URL-decoded
target as id, the whitespace-trimmed anchor text as name and the trimmed
type text as kind.  The extraction is a plain function of the row in this
embedding, so re-parsing the same row yields the same record by
definitional equality. -/
theorem rowApp_extracts (ld : Option (List Hyperlink)) (href nm ty : String) (appid : Nat)
    (h : (numericParts href).getLast? = some appid) :
    rowApp ⟨ld, some (some ⟨some href, nm⟩), some ty⟩ =
      Except.ok ⟨appid, pyStrip nm, pyStrip ty⟩ := by
  simp [rowApp, h]

/-- C8 witness: the theorem at a concrete row. -/
theorem rowApp_extracts_witness :
    rowApp ⟨none,
        some (some ⟨some "https://partner.steamgames.com/apps/landing/440", " Foo "⟩),
        some " game "⟩ =
      Except.ok ⟨440, pyStrip " Foo ", pyStrip " game "⟩ :=
  rowApp_extracts none "https://partner.steamgames.com/apps/landing/440"
    " Foo " " game " 440 (by decide)

theorem get_apps_loop_missing_links (rows : List AppRow) :
    (∃ r ∈ rows, r.links_div = none) → isOkE (get_apps_loop true rows) = false := by
  induction rows with
  | nil => intro h; simp at h
  | cons row rest ih =>
    intro h
    show isOkE (match row.links_div with
      | none => Except.error PyError.attributeError
      | some links =>
        if links.length < 2 then get_apps_loop true rest
        else
          Except.bind (rowApp row) fun app =>
            Except.map (fun apps => app :: apps) (get_apps_loop true rest)) = false
    rcases h with ⟨r, hr, hnone⟩
    rcases List.mem_cons.mp hr with heq | hr2
    · rw [heq] at hnone
      rw [hnone]
      rfl
    · have hrest := ih ⟨r, hr2, hnone⟩
      cases hl : row.links_div with
      | none => rfl
      | some links =>
        show isOkE (if links.length < 2 then get_apps_loop true rest
          else
            Except.bind (rowApp row) fun app =>
              Except.map (fun apps => app :: apps) (get_apps_loop true rest)) = false
        by_cases hlen : links.length < 2
        · rw [if_pos hlen]
          exact hrest
        · rw [if_neg hlen]
          cases happ : rowApp row with
          | error e => rfl
          | ok app =>
            show isOkE (Except.map (fun apps => app :: apps) (get_apps_loop true rest)) = false
            cases hrest2 : get_apps_loop true rest with
            | error e => rfl
            | ok l =>
              rw [hrest2] at hrest
              exact absurd hrest (by simp [isOkE])

/-- C9: a listing page without the expected heading makes get_apps fail
with the fatal parse error, and a row set containing a row without the
expected links structure makes get_apps with store_pages_only set fail
without returning any partial record list. -/
theorem get_apps_parse_failures_fatal (store_pages_only : Bool) (rows : List AppRow) :
    get_apps ⟨none⟩ store_pages_only = Except.error PyError.attributeError ∧
    ((∃ r ∈ rows, r.links_div = none) →
      isOkE (get_apps ⟨some rows⟩ true) = false) := by
  constructor
  · rfl
  · intro h
    show isOkE (get_apps_loop true rows) = false
    exact get_apps_loop_missing_links rows h

/-- C9 witness: the theorem at a malformed single-row page. -/
theorem get_apps_parse_failures_fatal_witness :
    get_apps ⟨none⟩ true = Except.error PyError.attributeError ∧
    isOkE (get_apps ⟨some [rowNoLinks]⟩ true) = false :=
  ⟨(get_apps_parse_failures_fatal true [rowNoLinks]).1,
   (get_apps_parse_failures_fatal true [rowNoLinks]).2 ⟨rowNoLinks, by simp, rfl⟩⟩

theorem getLast?_of_ne_nil {α : Type} (l : List α) (h : l ≠ []) :
    ∃ n, l.getLast? = some n := by
  cases l with
  | nil => exact absurd rfl h
  | cons a as => exact ⟨(a :: as).getLast (by simp), rfl⟩

/-- C10: the id extraction of both the Listing Scraper and the per-entity
worker is defined exactly when the URL-decoded path of the hyperlink
target has a purely numeric segment: with no such segment the trailing
index of the extraction raises IndexError on the empty list, in the row
extraction as in the worker comprehension, and with at least one segment
both extractions succeed. -/
theorem id_extraction_partiality (ld : Option (List Hyperlink)) (href nm ty : String) :
    (numericParts href = [] →
      rowApp ⟨ld, some (some ⟨some href, nm⟩), some ty⟩ =
          Except.error PyError.indexError ∧
      app_thread_parse ⟨some [⟨some href⟩]⟩ = Except.error PyError.indexError) ∧
    (numericParts href ≠ [] →
      isOkE (rowApp ⟨ld, some (some ⟨some href, nm⟩), some ty⟩) = true ∧
      isOkE (app_thread_parse ⟨some [⟨some href⟩]⟩) = true) := by
  constructor
  · intro h
    have hl : (numericParts href).getLast? = none := by rw [h]; rfl
    constructor
    · simp [rowApp, hl]
    · show app_thread_rows [⟨some href⟩] = _
      simp [app_thread_rows, hl]
  · intro h
    rcases getLast?_of_ne_nil (numericParts href) h with ⟨n, hn⟩
    constructor
    · simp [rowApp, hn, isOkE]
    · show isOkE (app_thread_rows [⟨some href⟩]) = true
      simp [app_thread_rows, hn, isOkE, Except.map]

/-- C10 witness: a target without numeric segment fails with IndexError in
both extractions, and a target with one succeeds in the worker. -/
theorem id_extraction_partiality_witness :
    (rowApp ⟨none,
        some (some ⟨some "https://partner.steamgames.com/apps/associated/foo", "N"⟩),
        some "T"⟩ = Except.error PyError.indexError ∧
      app_thread_parse
          ⟨some [⟨some "https://partner.steamgames.com/apps/associated/foo"⟩]⟩ =
        Except.error PyError.indexError) ∧
    isOkE (app_thread_parse ⟨some [⟨some "/packages/100"⟩]⟩) = true :=
  ⟨(id_extraction_partiality none
      "https://partner.steamgames.com/apps/associated/foo" "N" "T").1 (by decide),
   ((id_extraction_partiality none "/packages/100" "N" "T").2 (by decide)).2⟩

/-- C1 counterexample: on pagesOneFailing the worker for appid 10 raises,
yet get_packages neither fails nor returns an empty result: it returns the
partial RelationMap contributed by the surviving worker for appid 20,
because the iterator returned by pool.map is never consumed and the stored
exception is dropped at the join. -/
theorem get_packages_partial_map_on_worker_failure :
    isOkE (app_thread_parse (pagesOneFailing 10)) = false ∧
    get_packages pagesOneFailing [10, 20] = [(200, 20)] :=
  ⟨rfl, by decide⟩

/-- C1 amended: a worker whose fetch or parse raises contributes nothing
and the error does not propagate; get_packages returns exactly the
RelationMap built by the workers whose parse succeeded. -/
theorem get_packages_drops_failed_workers (pages : Nat → DetailPage) (sched : List Nat) :
    get_packages pages sched =
      get_packages pages (sched.filter (fun a => isOkE (app_thread_parse (pages a)))) := by
  unfold get_packages
  suffices h : ∀ m, sched.foldl (get_packages_step pages) m =
      (sched.filter (fun a => isOkE (app_thread_parse (pages a)))).foldl
        (get_packages_step pages) m from h []
  induction sched with
  | nil => intro m; rfl
  | cons a rest ih =>
    intro m
    cases hp : app_thread_parse (pages a) with
    | error e =>
      have hstep : get_packages_step pages m a = m := by
        simp [get_packages_step, hp]
      rw [List.foldl_cons, hstep, List.filter_cons,
        if_neg (by simp [isOkE, hp]), ih m]
    | ok pids =>
      rw [List.foldl_cons, List.filter_cons, if_pos (by simp [isOkE, hp]),
        List.foldl_cons, ih _]

/-- C5 counterexample: with fixed per-entity fetch results in which two
distinct entity ids both yield packageid 100, the content of the completed
RelationMap depends on the order in which the workers reach the lock: the
last writer wins. -/
theorem get_packages_schedule_dependent :
    ¬ (natDictLookup (get_packages pagesCollide [10, 20]) 100 =
        natDictLookup (get_packages pagesCollide [20, 10]) 100) := by
  decide

/-- C5 amended: when no packageid is extracted for two distinct appids, the
completed RelationMap holds the same key-value pairs for every lock order,
hence for every concurrency and worker scheduling: the merge is
commutative on disjoint contributions. -/
theorem get_packages_deterministic_of_disjoint (pages : Nat → DetailPage)
    (l l2 : List Nat) (hperm : l.Perm l2)
    (hdisj : ∀ a ∈ l, ∀ b ∈ l, a ≠ b → ∀ k ∈ extOk pages a, k ∉ extOk pages b) :
    ∀ k, natDictLookup (get_packages pages l) k =
      natDictLookup (get_packages pages l2) k := by
  intro k
  rw [natDictLookup_get_packages, natDictLookup_get_packages]
  cases h1 : lastOwner pages k l with
  | none =>
    cases h2 : lastOwner pages k l2 with
    | none => rfl
    | some w =>
      exfalso
      rcases lastOwner_some pages k l2 w h2 with ⟨hw, hkw⟩
      exact ((lastOwner_none pages k l).mp h1) w (hperm.mem_iff.mpr hw) hkw
  | some v =>
    rcases lastOwner_some pages k l v h1 with ⟨hv, hkv⟩
    cases h2 : lastOwner pages k l2 with
    | none =>
      exfalso
      exact ((lastOwner_none pages k l2).mp h2) v (hperm.mem_iff.mp hv) hkv
    | some w =>
      rcases lastOwner_some pages k l2 w h2 with ⟨hw, hkw⟩
      by_cases hvw : v = w
      · rw [hvw]
      · exact absurd hkw (hdisj v hv w (hperm.mem_iff.mpr hw) hvw k hkv)

/-- C5 witness: the amended theorem at disjoint pages and swapped
schedules. -/
theorem get_packages_deterministic_of_disjoint_witness :
    natDictLookup (get_packages pagesDisjoint [10, 20]) 100 =
      natDictLookup (get_packages pagesDisjoint [20, 10]) 100 :=
  get_packages_deterministic_of_disjoint pagesDisjoint [10, 20] [20, 10]
    (by decide) (by decide) 100

/-- C6: every key of the completed RelationMap maps to an entity of the
schedule whose successful parse actually contains that key, and every
packageid extracted by a successful worker of the schedule occurs as a key
of the completed map; an entity therefore contributes nothing only when it
contributes zero extracted packageids. -/
theorem relation_map_sound_and_complete (pages : Nat → DetailPage) (sched : List Nat) :
    (∀ k v, natDictLookup (get_packages pages sched) k = some v →
      v ∈ sched ∧ ∃ pids, app_thread_parse (pages v) = Except.ok pids ∧ k ∈ pids) ∧
    (∀ a ∈ sched, ∀ pids, app_thread_parse (pages a) = Except.ok pids →
      ∀ k ∈ pids, (natDictLookup (get_packages pages sched) k).isSome = true) := by
  constructor
  · intro k v h
    rw [natDictLookup_get_packages] at h
    rcases lastOwner_some pages k sched v h with ⟨hv, hkv⟩
    refine ⟨hv, ?_⟩
    cases hp : app_thread_parse (pages v) with
    | error e =>
      exfalso
      unfold extOk at hkv
      rw [hp] at hkv
      simp at hkv
    | ok pids =>
      refine ⟨pids, rfl, ?_⟩
      unfold extOk at hkv
      rw [hp] at hkv
      simpa using hkv
  · intro a ha pids hp k hk
    rw [natDictLookup_get_packages]
    cases h2 : lastOwner pages k sched with
    | some v => rfl
    | none =>
      exfalso
      apply (lastOwner_none pages k sched).mp h2 a ha
      unfold extOk
      rw [hp]
      exact hk

/-- C6 witness: the theorem at the two-worker pages and schedule. -/
theorem relation_map_sound_and_complete_witness :
    (10 ∈ ([10, 20] : List Nat) ∧
      ∃ pids, app_thread_parse (pagesTwoWorkers 10) = Except.ok pids ∧ 100 ∈ pids) ∧
    (natDictLookup (get_packages pagesTwoWorkers [10, 20]) 200).isSome = true :=
  ⟨(relation_map_sound_and_complete pagesTwoWorkers [10, 20]).1 100 10 (by decide),
   (relation_map_sound_and_complete pagesTwoWorkers [10, 20]).2 20 (by decide)
      [200] rfl 200 (by decide)⟩
